import Mathlib

/-!
Verification of the edge-attribute conversion add-on
(source file: src/转换锐边、缝合边和倒角权重.py).

The add-on operates on the edges of the active mesh object: each of its
operators converts one per-edge attribute (the sharp flag, i.e. the negation
of `edge.smooth`; the UV-seam flag `edge.seam`; the bevel-weight scalar held
in a bevel-weight layer) into another, over the currently selected edges,
optionally clearing the source attribute.

The embedding below models the per-edge attribute state, the edge-layer
bookkeeping of `ensure_bevel_layer`, and the `execute` methods of the five
operators (`MESH_OT_convert_edge_attributes` and the four quick variants) as
pure functions from the pre-state to a result record holding the reported
outcome, the post-state, and a trace of the storage/capture events in the
order the source performs them.
-/

/-- Per-edge attribute state, as read and written by the operators:
`smooth` is Blender's `edge.smooth` (an edge is *sharp* iff `smooth = false`),
`seam` is `edge.seam`, `bevelWeight` is the scalar stored for this edge in the
bevel-weight layer, and `select` is `edge.select` (membership in the current
selection). -/
structure Edge where
  smooth : Bool
  seam : Bool
  bevelWeight : ℚ
  select : Bool
deriving DecidableEq, Repr

/-- An edge is sharp when smoothing is disabled, i.e. `edge.smooth == False`. -/
def isSharp (e : Edge) : Bool := !e.smooth

/-- The four values of the `conversion_type` EnumProperty of
`MESH_OT_convert_edge_attributes`. -/
inductive ConversionType
  | SHARP_TO_BEVEL
  | SHARP_TO_SEAM
  | SEAM_TO_SHARP
  | SEAM_TO_BEVEL
deriving DecidableEq, Repr

/-- Models the test `'BEVEL' in self.conversion_type` (substring test on the
enum identifier): true exactly for `SHARP_TO_BEVEL` and `SEAM_TO_BEVEL`. -/
def touchesBevel : ConversionType → Bool
  | .SHARP_TO_BEVEL => true
  | .SEAM_TO_BEVEL => true
  | .SHARP_TO_SEAM => false
  | .SEAM_TO_SHARP => false

/-- A handle to the bevel-weight storage returned by `ensure_bevel_layer`:
either the dedicated `bm.edges.layers.bevel_weight` layer, or a generic
named float layer from `bm.edges.layers.float`. -/
inductive BevelLayer
  | dedicated
  | namedFloat (name : String)
deriving DecidableEq, Repr

/-- The attribute-layer bookkeeping of a BMesh edge domain:
`bevelAPIAvailable` says whether the `bm.edges.layers.bevel_weight` accessor
exists in this Blender version (its absence raises `AttributeError`);
`hasDedicatedLayer` says whether the dedicated bevel-weight layer is
allocated; `floatLayers` lists the names of generic per-edge float layers. -/
structure EdgeLayers where
  bevelAPIAvailable : Bool
  hasDedicatedLayer : Bool
  floatLayers : List String
deriving DecidableEq, Repr

/-- Models `bm.edges.layers.bevel_weight.verify()`: when the accessor exists
it returns the dedicated layer, creating it if missing; when the accessor is
absent (`AttributeError` in the source) it returns `none`. -/
def bevelWeightVerify (ls : EdgeLayers) : Option (BevelLayer × EdgeLayers) :=
  if ls.bevelAPIAvailable then
    some (.dedicated, { ls with hasDedicatedLayer := true })
  else
    none

/-- Models `ensure_bevel_layer(bm)`: try the standard API first; on
`AttributeError`, fall back to `bm.edges.layers.float.get("bevel_weight_edge")`,
allocating the named float layer with `new` when it does not exist. -/
def ensure_bevel_layer (ls : EdgeLayers) : BevelLayer × EdgeLayers :=
  match bevelWeightVerify ls with
  | some r => r
  | none =>
    if "bevel_weight_edge" ∈ ls.floatLayers then
      (.namedFloat "bevel_weight_edge", ls)
    else
      (.namedFloat "bevel_weight_edge",
        { ls with floatLayers := ls.floatLayers ++ ["bevel_weight_edge"] })

/-- The edit-mode mesh data the operators act on: the edge sequence
`bm.edges` together with the layer bookkeeping. -/
structure MeshData where
  edges : List Edge
  layers : EdgeLayers
deriving DecidableEq, Repr

/-- The `context.active_object` seen by `execute`: absent, a non-mesh object,
or a mesh with its edit-mode data. -/
inductive ActiveObject
  | noObject
  | nonMesh
  | mesh (m : MeshData)
deriving DecidableEq, Repr

/-- The reported outcome of an operator: a warning with `'CANCELLED'`, or an
info message with the modified-edge count and `'FINISHED'`. -/
inductive Outcome
  | cancelled (warning : String)
  | finished (msg : String) (count : Nat)
deriving DecidableEq, Repr

/-- Observable storage/capture events of one `execute` run, in source order:
ensuring the bevel-weight layer, capturing `selected_edges` from `bm.edges`,
running the mutation pass, and calling `bmesh.update_edit_mesh`. -/
inductive Event
  | ensureBevelLayer
  | captureEdges
  | writePass
  | updateMesh
deriving DecidableEq, Repr

/-- Result of one `execute` run: reported outcome, post-state of the active
object, and the event trace. -/
structure ExecResult where
  outcome : Outcome
  state : ActiveObject
  trace : List Event
deriving DecidableEq, Repr

/-- The per-edge body of the conversion loop of
`MESH_OT_convert_edge_attributes.execute`: for the given `conversion_type`
and `clear_original`, returns the updated edge and whether the branch counted
it as modified. -/
def convertEdge (ct : ConversionType) (clear : Bool) (e : Edge) : Edge × Bool :=
  match ct with
  | .SHARP_TO_BEVEL =>
    if e.smooth = false then
      let e1 := { e with bevelWeight := 1 }
      (if clear then { e1 with smooth := true } else e1, true)
    else (e, false)
  | .SHARP_TO_SEAM =>
    if e.smooth = false then
      let e1 := { e with seam := true }
      (if clear then { e1 with smooth := true } else e1, true)
    else (e, false)
  | .SEAM_TO_SHARP =>
    if e.seam then
      let e1 := { e with smooth := false }
      (if clear then { e1 with seam := false } else e1, true)
    else (e, false)
  | .SEAM_TO_BEVEL =>
    if e.seam then
      let e1 := { e with bevelWeight := 1 }
      (if clear then { e1 with seam := false } else e1, true)
    else (e, false)

/-- The source predicate of a rule, i.e. the loop's `if` condition:
`edge.smooth == False` for sharp-sourced rules, `edge.seam` for seam-sourced
rules. -/
def sourcePred (ct : ConversionType) (e : Edge) : Bool :=
  match ct with
  | .SHARP_TO_BEVEL => e.smooth = false
  | .SHARP_TO_SEAM => e.smooth = false
  | .SEAM_TO_SHARP => e.seam
  | .SEAM_TO_BEVEL => e.seam

/-- Effect of the conversion pass on the full edge sequence: each edge of the
snapshot `selected_edges` (exactly the edges with `select = true`) is mutated
in place by the loop body; all other edges are untouched. -/
def passEdges (ct : ConversionType) (clear : Bool) (edges : List Edge) :
    List Edge :=
  edges.map fun e => if e.select then (convertEdge ct clear e).1 else e

/-- The `modified_count` accumulated by the loop over `selected_edges`: the
number of visited edges whose branch fired. -/
def passCount (ct : ConversionType) (clear : Bool)
    (selectedEdges : List Edge) : Nat :=
  selectedEdges.countP fun e => (convertEdge ct clear e).2

/-- Warning reported when no mesh object is active
("please select a mesh object"). -/
def warnNoMesh : String := "请选择一个网格物体"

/-- Warning reported when the selection is empty ("no edges selected"). -/
def warnNoEdges : String := "没有选中的边"

/-- Embedding of `MESH_OT_convert_edge_attributes.execute`: check the active
object, ensure the bevel layer first when the conversion type touches bevel
weight, then capture `selected_edges`, cancel on an empty selection, and
otherwise run the conversion loop and report the count. -/
def executeConvert (ct : ConversionType) (clear : Bool) (aobj : ActiveObject) :
    ExecResult :=
  match aobj with
  | .noObject => ⟨.cancelled warnNoMesh, aobj, []⟩
  | .nonMesh => ⟨.cancelled warnNoMesh, aobj, []⟩
  | .mesh m =>
    let ensured :=
      if touchesBevel ct then
        ((ensure_bevel_layer m.layers).2, [Event.ensureBevelLayer])
      else (m.layers, [])
    let selectedEdges := m.edges.filter fun e => e.select
    let tr := ensured.2 ++ [Event.captureEdges]
    if selectedEdges.isEmpty then
      ⟨.cancelled warnNoEdges, .mesh { m with layers := ensured.1 }, tr⟩
    else
      let cnt := passCount ct clear selectedEdges
      ⟨.finished ("成功转换 " ++ toString cnt ++ " 条边") cnt,
        .mesh ⟨passEdges ct clear m.edges, ensured.1⟩,
        tr ++ [Event.writePass, Event.updateMesh]⟩

/-- The per-edge loop body of `MESH_OT_quick_convert_sharp_to_bevel.execute`. -/
def quickSharpToBevelEdge (clear : Bool) (e : Edge) : Edge × Bool :=
  if e.smooth = false then
    let e1 := { e with bevelWeight := 1 }
    (if clear then { e1 with smooth := true } else e1, true)
  else (e, false)

/-- The per-edge loop body of `MESH_OT_quick_convert_sharp_to_seam.execute`. -/
def quickSharpToSeamEdge (clear : Bool) (e : Edge) : Edge × Bool :=
  if e.smooth = false then
    let e1 := { e with seam := true }
    (if clear then { e1 with smooth := true } else e1, true)
  else (e, false)

/-- The per-edge loop body of `MESH_OT_quick_convert_seam_to_sharp.execute`. -/
def quickSeamToSharpEdge (clear : Bool) (e : Edge) : Edge × Bool :=
  if e.seam then
    let e1 := { e with smooth := false }
    (if clear then { e1 with seam := false } else e1, true)
  else (e, false)

/-- The per-edge loop body of `MESH_OT_quick_convert_seam_to_bevel.execute`. -/
def quickSeamToBevelEdge (clear : Bool) (e : Edge) : Edge × Bool :=
  if e.seam then
    let e1 := { e with bevelWeight := 1 }
    (if clear then { e1 with seam := false } else e1, true)
  else (e, false)

/-- Embedding of `MESH_OT_quick_convert_sharp_to_bevel.execute`: same shape
as the general operator with the sharp-to-bevel body, with the bevel layer
ensured unconditionally before the edges are collected, and the quick
operators' own info message. -/
def executeQuickSharpToBevel (clear : Bool) (aobj : ActiveObject) :
    ExecResult :=
  match aobj with
  | .noObject => ⟨.cancelled warnNoMesh, aobj, []⟩
  | .nonMesh => ⟨.cancelled warnNoMesh, aobj, []⟩
  | .mesh m =>
    let ls := (ensure_bevel_layer m.layers).2
    let selectedEdges := m.edges.filter fun e => e.select
    let tr := [Event.ensureBevelLayer, Event.captureEdges]
    if selectedEdges.isEmpty then
      ⟨.cancelled warnNoEdges, .mesh { m with layers := ls }, tr⟩
    else
      let cnt := selectedEdges.countP fun e => (quickSharpToBevelEdge clear e).2
      ⟨.finished ("转换了 " ++ toString cnt ++ " 条边") cnt,
        .mesh ⟨m.edges.map fun e =>
          if e.select then (quickSharpToBevelEdge clear e).1 else e, ls⟩,
        tr ++ [Event.writePass, Event.updateMesh]⟩

/-- Embedding of `MESH_OT_quick_convert_sharp_to_seam.execute`: no bevel
layer is touched; the edges are collected and the sharp-to-seam body runs
over the selection. -/
def executeQuickSharpToSeam (clear : Bool) (aobj : ActiveObject) :
    ExecResult :=
  match aobj with
  | .noObject => ⟨.cancelled warnNoMesh, aobj, []⟩
  | .nonMesh => ⟨.cancelled warnNoMesh, aobj, []⟩
  | .mesh m =>
    let selectedEdges := m.edges.filter fun e => e.select
    let tr := [Event.captureEdges]
    if selectedEdges.isEmpty then
      ⟨.cancelled warnNoEdges, .mesh m, tr⟩
    else
      let cnt := selectedEdges.countP fun e => (quickSharpToSeamEdge clear e).2
      ⟨.finished ("转换了 " ++ toString cnt ++ " 条边") cnt,
        .mesh ⟨m.edges.map fun e =>
          if e.select then (quickSharpToSeamEdge clear e).1 else e, m.layers⟩,
        tr ++ [Event.writePass, Event.updateMesh]⟩

/-- Embedding of `MESH_OT_quick_convert_seam_to_sharp.execute`. -/
def executeQuickSeamToSharp (clear : Bool) (aobj : ActiveObject) :
    ExecResult :=
  match aobj with
  | .noObject => ⟨.cancelled warnNoMesh, aobj, []⟩
  | .nonMesh => ⟨.cancelled warnNoMesh, aobj, []⟩
  | .mesh m =>
    let selectedEdges := m.edges.filter fun e => e.select
    let tr := [Event.captureEdges]
    if selectedEdges.isEmpty then
      ⟨.cancelled warnNoEdges, .mesh m, tr⟩
    else
      let cnt := selectedEdges.countP fun e => (quickSeamToSharpEdge clear e).2
      ⟨.finished ("转换了 " ++ toString cnt ++ " 条边") cnt,
        .mesh ⟨m.edges.map fun e =>
          if e.select then (quickSeamToSharpEdge clear e).1 else e, m.layers⟩,
        tr ++ [Event.writePass, Event.updateMesh]⟩

/-- Embedding of `MESH_OT_quick_convert_seam_to_bevel.execute`: the bevel
layer is ensured before the edges are collected, then the seam-to-bevel body
runs over the selection. -/
def executeQuickSeamToBevel (clear : Bool) (aobj : ActiveObject) :
    ExecResult :=
  match aobj with
  | .noObject => ⟨.cancelled warnNoMesh, aobj, []⟩
  | .nonMesh => ⟨.cancelled warnNoMesh, aobj, []⟩
  | .mesh m =>
    let ls := (ensure_bevel_layer m.layers).2
    let selectedEdges := m.edges.filter fun e => e.select
    let tr := [Event.ensureBevelLayer, Event.captureEdges]
    if selectedEdges.isEmpty then
      ⟨.cancelled warnNoEdges, .mesh { m with layers := ls }, tr⟩
    else
      let cnt := selectedEdges.countP fun e => (quickSeamToBevelEdge clear e).2
      ⟨.finished ("转换了 " ++ toString cnt ++ " 条边") cnt,
        .mesh ⟨m.edges.map fun e =>
          if e.select then (quickSeamToBevelEdge clear e).1 else e, ls⟩,
        tr ++ [Event.writePass, Event.updateMesh]⟩

/-- True when every `captureEdges` event in the trace is strictly preceded by
an `ensureBevelLayer` event; the flag records whether an ensure event has
been seen so far. -/
def capturesAfterEnsure (seen : Bool) : List Event → Bool
  | [] => true
  | .ensureBevelLayer :: rest => capturesAfterEnsure true rest
  | .captureEdges :: rest => seen && capturesAfterEnsure seen rest
  | _ :: rest => capturesAfterEnsure seen rest

/-- Outcome agreement up to the info-message wording: same warning when both
cancel, same modified-edge count when both finish. -/
def sameReport : Outcome → Outcome → Prop
  | .cancelled w1, .cancelled w2 => w1 = w2
  | .finished _ n1, .finished _ n2 => n1 = n2
  | _, _ => False

/-! Helper lemmas about the per-edge loop body and the conversion pass. -/

theorem convertEdge_snd (ct : ConversionType) (clear : Bool) (e : Edge) :
    (convertEdge ct clear e).2 = sourcePred ct e := by
  obtain ⟨sm, se, bw, sl⟩ := e
  cases ct <;> cases sm <;> cases se <;> cases clear <;> rfl

theorem convertEdge_select (ct : ConversionType) (clear : Bool) (e : Edge) :
    ((convertEdge ct clear e).1).select = e.select := by
  obtain ⟨sm, se, bw, sl⟩ := e
  cases ct <;> cases sm <;> cases se <;> cases clear <;> rfl

theorem convertEdge_of_not_pred (ct : ConversionType) (clear : Bool) (e : Edge)
    (h : sourcePred ct e = false) : (convertEdge ct clear e).1 = e := by
  obtain ⟨sm, se, bw, sl⟩ := e
  cases ct <;> cases sm <;> cases se <;> cases clear <;>
    first
    | rfl
    | simp [sourcePred] at h

theorem sourcePred_convertEdge_clear (ct : ConversionType) (e : Edge) :
    sourcePred ct (convertEdge ct true e).1 = false := by
  obtain ⟨sm, se, bw, sl⟩ := e
  cases ct <;> cases sm <;> cases se <;> rfl

theorem passEdges_length (ct : ConversionType) (clear : Bool)
    (edges : List Edge) : (passEdges ct clear edges).length = edges.length := by
  simp [passEdges]

theorem passEdges_getElem (ct : ConversionType) (clear : Bool)
    (edges : List Edge) (i : Nat) (hi : i < edges.length)
    (hi2 : i < (passEdges ct clear edges).length) :
    (passEdges ct clear edges)[i] =
      if edges[i].select then (convertEdge ct clear edges[i]).1 else edges[i] := by
  simp [passEdges]

theorem passEdges_filter_select (ct : ConversionType) (clear : Bool)
    (edges : List Edge) :
    (passEdges ct clear edges).filter (fun e => e.select) =
      (edges.filter fun e => e.select).map fun e => (convertEdge ct clear e).1 := by
  induction edges with
  | nil => rfl
  | cons a l ih =>
    by_cases h : a.select = true
    · simp only [passEdges, List.map_cons, if_pos h] at *
      rw [List.filter_cons_of_pos (by simpa [convertEdge_select] using h),
        List.filter_cons_of_pos (by simpa using h), List.map_cons, ih]
    · simp only [passEdges, List.map_cons, if_neg h] at *
      rw [List.filter_cons_of_neg (by simpa using h),
        List.filter_cons_of_neg (by simpa using h), ih]

theorem filter_mem_isEmpty_false {l : List Edge} {e : Edge} (hmem : e ∈ l) :
    l.isEmpty = false := by
  cases l with
  | nil => cases hmem
  | cons a t => rfl

theorem passCount_eq (ct : ConversionType) (clear : Bool)
    (sel : List Edge) : passCount ct clear sel = sel.countP (sourcePred ct) := by
  unfold passCount
  simp only [convertEdge_snd]

theorem executeConvert_mesh_of_ne (ct : ConversionType) (clear : Bool)
    (m : MeshData)
    (h : (m.edges.filter fun e => e.select).isEmpty = false) :
    executeConvert ct clear (.mesh m) =
      ⟨.finished
         ("成功转换 " ++
           toString (passCount ct clear (m.edges.filter fun e => e.select)) ++
           " 条边")
         (passCount ct clear (m.edges.filter fun e => e.select)),
       .mesh ⟨passEdges ct clear m.edges,
         if touchesBevel ct then (ensure_bevel_layer m.layers).2 else m.layers⟩,
       (if touchesBevel ct then [Event.ensureBevelLayer] else []) ++
         [Event.captureEdges, Event.writePass, Event.updateMesh]⟩ := by
  by_cases hb : touchesBevel ct = true <;>
    simp [executeConvert, h, hb]

theorem executeConvert_mesh_of_empty (ct : ConversionType) (clear : Bool)
    (m : MeshData)
    (h : (m.edges.filter fun e => e.select).isEmpty = true) :
    executeConvert ct clear (.mesh m) =
      ⟨.cancelled warnNoEdges,
       .mesh ⟨m.edges,
         if touchesBevel ct then (ensure_bevel_layer m.layers).2 else m.layers⟩,
       (if touchesBevel ct then [Event.ensureBevelLayer] else []) ++
         [Event.captureEdges]⟩ := by
  by_cases hb : touchesBevel ct = true <;>
    simp [executeConvert, h, hb]

theorem quickSharpToBevelEdge_eq (clear : Bool) (e : Edge) :
    quickSharpToBevelEdge clear e = convertEdge .SHARP_TO_BEVEL clear e := rfl

theorem quickSharpToSeamEdge_eq (clear : Bool) (e : Edge) :
    quickSharpToSeamEdge clear e = convertEdge .SHARP_TO_SEAM clear e := rfl

theorem quickSeamToSharpEdge_eq (clear : Bool) (e : Edge) :
    quickSeamToSharpEdge clear e = convertEdge .SEAM_TO_SHARP clear e := rfl

theorem quickSeamToBevelEdge_eq (clear : Bool) (e : Edge) :
    quickSeamToBevelEdge clear e = convertEdge .SEAM_TO_BEVEL clear e := rfl

theorem quickSharpToBevel_eq_general (clear : Bool) (aobj : ActiveObject) :
    (executeQuickSharpToBevel clear aobj).state =
      (executeConvert .SHARP_TO_BEVEL clear aobj).state ∧
    sameReport (executeQuickSharpToBevel clear aobj).outcome
      (executeConvert .SHARP_TO_BEVEL clear aobj).outcome ∧
    (executeQuickSharpToBevel clear aobj).trace =
      (executeConvert .SHARP_TO_BEVEL clear aobj).trace := by
  cases aobj with
  | noObject => exact ⟨rfl, rfl, rfl⟩
  | nonMesh => exact ⟨rfl, rfl, rfl⟩
  | mesh m =>
    by_cases h : (m.edges.filter fun e => e.select).isEmpty = true
    · rw [executeConvert_mesh_of_empty .SHARP_TO_BEVEL clear m h]
      simp [executeQuickSharpToBevel, h, sameReport, touchesBevel]
    · have h2 : (m.edges.filter fun e => e.select).isEmpty = false := by
        simpa using h
      rw [executeConvert_mesh_of_ne .SHARP_TO_BEVEL clear m h2]
      simp [executeQuickSharpToBevel, h2, sameReport, touchesBevel,
        passEdges, passCount, quickSharpToBevelEdge_eq]

theorem quickSharpToSeam_eq_general (clear : Bool) (aobj : ActiveObject) :
    (executeQuickSharpToSeam clear aobj).state =
      (executeConvert .SHARP_TO_SEAM clear aobj).state ∧
    sameReport (executeQuickSharpToSeam clear aobj).outcome
      (executeConvert .SHARP_TO_SEAM clear aobj).outcome ∧
    (executeQuickSharpToSeam clear aobj).trace =
      (executeConvert .SHARP_TO_SEAM clear aobj).trace := by
  cases aobj with
  | noObject => exact ⟨rfl, rfl, rfl⟩
  | nonMesh => exact ⟨rfl, rfl, rfl⟩
  | mesh m =>
    by_cases h : (m.edges.filter fun e => e.select).isEmpty = true
    · rw [executeConvert_mesh_of_empty .SHARP_TO_SEAM clear m h]
      simp [executeQuickSharpToSeam, h, sameReport, touchesBevel]
    · have h2 : (m.edges.filter fun e => e.select).isEmpty = false := by
        simpa using h
      rw [executeConvert_mesh_of_ne .SHARP_TO_SEAM clear m h2]
      simp [executeQuickSharpToSeam, h2, sameReport, touchesBevel,
        passEdges, passCount, quickSharpToSeamEdge_eq]

theorem quickSeamToSharp_eq_general (clear : Bool) (aobj : ActiveObject) :
    (executeQuickSeamToSharp clear aobj).state =
      (executeConvert .SEAM_TO_SHARP clear aobj).state ∧
    sameReport (executeQuickSeamToSharp clear aobj).outcome
      (executeConvert .SEAM_TO_SHARP clear aobj).outcome ∧
    (executeQuickSeamToSharp clear aobj).trace =
      (executeConvert .SEAM_TO_SHARP clear aobj).trace := by
  cases aobj with
  | noObject => exact ⟨rfl, rfl, rfl⟩
  | nonMesh => exact ⟨rfl, rfl, rfl⟩
  | mesh m =>
    by_cases h : (m.edges.filter fun e => e.select).isEmpty = true
    · rw [executeConvert_mesh_of_empty .SEAM_TO_SHARP clear m h]
      simp [executeQuickSeamToSharp, h, sameReport, touchesBevel]
    · have h2 : (m.edges.filter fun e => e.select).isEmpty = false := by
        simpa using h
      rw [executeConvert_mesh_of_ne .SEAM_TO_SHARP clear m h2]
      simp [executeQuickSeamToSharp, h2, sameReport, touchesBevel,
        passEdges, passCount, quickSeamToSharpEdge_eq]

theorem quickSeamToBevel_eq_general (clear : Bool) (aobj : ActiveObject) :
    (executeQuickSeamToBevel clear aobj).state =
      (executeConvert .SEAM_TO_BEVEL clear aobj).state ∧
    sameReport (executeQuickSeamToBevel clear aobj).outcome
      (executeConvert .SEAM_TO_BEVEL clear aobj).outcome ∧
    (executeQuickSeamToBevel clear aobj).trace =
      (executeConvert .SEAM_TO_BEVEL clear aobj).trace := by
  cases aobj with
  | noObject => exact ⟨rfl, rfl, rfl⟩
  | nonMesh => exact ⟨rfl, rfl, rfl⟩
  | mesh m =>
    by_cases h : (m.edges.filter fun e => e.select).isEmpty = true
    · rw [executeConvert_mesh_of_empty .SEAM_TO_BEVEL clear m h]
      simp [executeQuickSeamToBevel, h, sameReport, touchesBevel]
    · have h2 : (m.edges.filter fun e => e.select).isEmpty = false := by
        simpa using h
      rw [executeConvert_mesh_of_ne .SEAM_TO_BEVEL clear m h2]
      simp [executeQuickSeamToBevel, h2, sameReport, touchesBevel,
        passEdges, passCount, quickSeamToBevelEdge_eq]

theorem executeConvert_state_getElem (ct : ConversionType) (clear : Bool)
    (m : MeshData) (i : Nat) (hi : i < m.edges.length)
    (hsel : (m.edges.get ⟨i, hi⟩).select = true) :
    ∃ m', (executeConvert ct clear (.mesh m)).state = .mesh m' ∧
      ∃ hi2 : i < m'.edges.length,
        m'.edges.get ⟨i, hi2⟩ = (convertEdge ct clear (m.edges.get ⟨i, hi⟩)).1 := by
  have hmem : m.edges.get ⟨i, hi⟩ ∈ m.edges.filter fun e => e.select := by
    apply List.mem_filter.mpr
    exact ⟨List.get_mem m.edges i hi, by simpa using hsel⟩
  have hne := filter_mem_isEmpty_false hmem
  rw [executeConvert_mesh_of_ne ct clear m hne]
  refine ⟨_, rfl, ?_⟩
  have hi2 : i < (passEdges ct clear m.edges).length := by
    rw [passEdges_length]; exact hi
  refine ⟨hi2, ?_⟩
  have := passEdges_getElem ct clear m.edges i hi hi2
  simp only [List.get_eq_getElem]
  rw [this]
  simp [hsel, List.get_eq_getElem] at *
  simp [hsel]

theorem convertEdge_sharp_to_bevel_clear (e : Edge) (h : isSharp e = true) :
    ((convertEdge .SHARP_TO_BEVEL true e).1).bevelWeight = 1 ∧
    isSharp (convertEdge .SHARP_TO_BEVEL true e).1 = false := by
  obtain ⟨sm, se, bw, sl⟩ := e
  cases sm
  · exact ⟨rfl, rfl⟩
  · simp [isSharp] at h

theorem sourcePred_false_of_not_sharp (ct : ConversionType)
    (hct : ct = .SHARP_TO_BEVEL ∨ ct = .SHARP_TO_SEAM) (e : Edge)
    (h : isSharp e = false) : sourcePred ct e = false := by
  have hsm : e.smooth = true := by simpa [isSharp] using h
  rcases hct with rfl | rfl <;> simp [sourcePred, hsm]

/-- C1: for every selected edge that is sharp before a SharpToBevel
conversion with clear-original enabled, the conversion sets its bevel weight
to 1.0 and clears its sharp flag (the edge becomes smooth); this holds both
for the general operator and for the quick sharp-to-bevel operator. -/
theorem sharpToBevel_sets_weight_clears_sharp (m : MeshData) (i : Nat)
    (hi : i < m.edges.length) (hsel : (m.edges.get ⟨i, hi⟩).select = true)
    (hsharp : isSharp (m.edges.get ⟨i, hi⟩) = true) :
    (∃ m', (executeConvert .SHARP_TO_BEVEL true (.mesh m)).state = .mesh m' ∧
       ∃ hi2 : i < m'.edges.length,
         (m'.edges.get ⟨i, hi2⟩).bevelWeight = 1 ∧
         isSharp (m'.edges.get ⟨i, hi2⟩) = false) ∧
    (∃ m', (executeQuickSharpToBevel true (.mesh m)).state = .mesh m' ∧
       ∃ hi2 : i < m'.edges.length,
         (m'.edges.get ⟨i, hi2⟩).bevelWeight = 1 ∧
         isSharp (m'.edges.get ⟨i, hi2⟩) = false) := by
  obtain ⟨m', hst, hi2, he⟩ :=
    executeConvert_state_getElem .SHARP_TO_BEVEL true m i hi hsel
  have hprop := convertEdge_sharp_to_bevel_clear _ hsharp
  obtain ⟨hq, -, -⟩ := quickSharpToBevel_eq_general true (.mesh m)
  constructor
  · exact ⟨m', hst, hi2, by rw [he]; exact hprop.1, by rw [he]; exact hprop.2⟩
  · refine ⟨m', ?_, hi2, by rw [he]; exact hprop.1, by rw [he]; exact hprop.2⟩
    rw [hq]; exact hst

/-- Witness for C1 at a one-edge mesh whose edge is selected and sharp. -/
theorem sharpToBevel_sets_weight_clears_sharp_witness :
    (∃ m', (executeConvert .SHARP_TO_BEVEL true
        (.mesh ⟨[⟨false, false, 0, true⟩], ⟨true, false, []⟩⟩)).state = .mesh m' ∧
       ∃ hi2 : 0 < m'.edges.length,
         (m'.edges.get ⟨0, hi2⟩).bevelWeight = 1 ∧
         isSharp (m'.edges.get ⟨0, hi2⟩) = false) ∧
    (∃ m', (executeQuickSharpToBevel true
        (.mesh ⟨[⟨false, false, 0, true⟩], ⟨true, false, []⟩⟩)).state = .mesh m' ∧
       ∃ hi2 : 0 < m'.edges.length,
         (m'.edges.get ⟨0, hi2⟩).bevelWeight = 1 ∧
         isSharp (m'.edges.get ⟨0, hi2⟩) = false) :=
  sharpToBevel_sets_weight_clears_sharp
    ⟨[⟨false, false, 0, true⟩], ⟨true, false, []⟩⟩ 0 (by decide)
    (by decide) (by decide)

/-- C2: for every rule and selection, the modified count reported by the
general operator equals the number of selected edges satisfying the rule's
source predicate in the pre-state. -/
theorem modifiedCount_eq_sourcePred_count (ct : ConversionType) (clear : Bool)
    (m : MeshData)
    (hne : (m.edges.filter fun e => e.select).isEmpty = false) :
    ∃ msg, (executeConvert ct clear (.mesh m)).outcome =
      .finished msg ((m.edges.filter fun e => e.select).countP
        (sourcePred ct)) := by
  rw [executeConvert_mesh_of_ne ct clear m hne]
  exact ⟨_, by rw [passCount_eq]⟩

/-- Witness for C2: two selected edges, one sharp, under SharpToBevel. -/
theorem modifiedCount_eq_sourcePred_count_witness :
    ∃ msg, (executeConvert .SHARP_TO_BEVEL true
      (.mesh ⟨[⟨false, false, 0, true⟩, ⟨true, true, 0, true⟩],
        ⟨true, false, []⟩⟩)).outcome =
      .finished msg
        ((([⟨false, false, 0, true⟩, ⟨true, true, 0, true⟩] :
            List Edge).filter (fun e => e.select)).countP
          (sourcePred .SHARP_TO_BEVEL)) :=
  modifiedCount_eq_sourcePred_count .SHARP_TO_BEVEL true
    ⟨[⟨false, false, 0, true⟩, ⟨true, true, 0, true⟩], ⟨true, false, []⟩⟩
    (by decide)

/-- C4: with no active object or a non-mesh active object, every operator
reports the select-a-mesh warning, cancels, and leaves the state untouched
with an empty event trace. -/
theorem invalidTarget_cancels_no_mutation (ct : ConversionType)
    (clear : Bool) :
    executeConvert ct clear .noObject =
      ⟨.cancelled warnNoMesh, .noObject, []⟩ ∧
    executeConvert ct clear .nonMesh =
      ⟨.cancelled warnNoMesh, .nonMesh, []⟩ ∧
    executeQuickSharpToBevel clear .noObject =
      ⟨.cancelled warnNoMesh, .noObject, []⟩ ∧
    executeQuickSharpToBevel clear .nonMesh =
      ⟨.cancelled warnNoMesh, .nonMesh, []⟩ ∧
    executeQuickSharpToSeam clear .noObject =
      ⟨.cancelled warnNoMesh, .noObject, []⟩ ∧
    executeQuickSharpToSeam clear .nonMesh =
      ⟨.cancelled warnNoMesh, .nonMesh, []⟩ ∧
    executeQuickSeamToSharp clear .noObject =
      ⟨.cancelled warnNoMesh, .noObject, []⟩ ∧
    executeQuickSeamToSharp clear .nonMesh =
      ⟨.cancelled warnNoMesh, .nonMesh, []⟩ ∧
    executeQuickSeamToBevel clear .noObject =
      ⟨.cancelled warnNoMesh, .noObject, []⟩ ∧
    executeQuickSeamToBevel clear .nonMesh =
      ⟨.cancelled warnNoMesh, .nonMesh, []⟩ :=
  ⟨rfl, rfl, rfl, rfl, rfl, rfl, rfl, rfl, rfl, rfl⟩

/-- C5: a selected edge that is not sharp is left entirely unmodified by a
sharp-sourced rule (SharpToBevel or SharpToSeam), for any clear-original
value, under the general operator and both quick sharp-sourced operators. -/
theorem nonSharp_edges_untouched (ct : ConversionType) (clear : Bool)
    (m : MeshData) (i : Nat) (hi : i < m.edges.length)
    (hct : ct = .SHARP_TO_BEVEL ∨ ct = .SHARP_TO_SEAM)
    (hsel : (m.edges.get ⟨i, hi⟩).select = true)
    (hns : isSharp (m.edges.get ⟨i, hi⟩) = false) :
    (∃ m', (executeConvert ct clear (.mesh m)).state = .mesh m' ∧
       ∃ hi2 : i < m'.edges.length,
         m'.edges.get ⟨i, hi2⟩ = m.edges.get ⟨i, hi⟩) ∧
    (∃ m', (executeQuickSharpToBevel clear (.mesh m)).state = .mesh m' ∧
       ∃ hi2 : i < m'.edges.length,
         m'.edges.get ⟨i, hi2⟩ = m.edges.get ⟨i, hi⟩) ∧
    (∃ m', (executeQuickSharpToSeam clear (.mesh m)).state = .mesh m' ∧
       ∃ hi2 : i < m'.edges.length,
         m'.edges.get ⟨i, hi2⟩ = m.edges.get ⟨i, hi⟩) := by
  have hfix : ∀ ct2, (ct2 = .SHARP_TO_BEVEL ∨ ct2 = .SHARP_TO_SEAM) →
      ∃ m', (executeConvert ct2 clear (.mesh m)).state = .mesh m' ∧
        ∃ hi2 : i < m'.edges.length,
          m'.edges.get ⟨i, hi2⟩ = m.edges.get ⟨i, hi⟩ := by
    intro ct2 hct2
    obtain ⟨m', hst, hi2, he⟩ :=
      executeConvert_state_getElem ct2 clear m i hi hsel
    refine ⟨m', hst, hi2, ?_⟩
    rw [he, convertEdge_of_not_pred ct2 clear _
      (sourcePred_false_of_not_sharp ct2 hct2 _ hns)]
  refine ⟨hfix ct hct, ?_, ?_⟩
  · obtain ⟨m', hst, hrest⟩ := hfix .SHARP_TO_BEVEL (Or.inl rfl)
    obtain ⟨hq, -, -⟩ := quickSharpToBevel_eq_general clear (.mesh m)
    exact ⟨m', by rw [hq]; exact hst, hrest⟩
  · obtain ⟨m', hst, hrest⟩ := hfix .SHARP_TO_SEAM (Or.inr rfl)
    obtain ⟨hq, -, -⟩ := quickSharpToSeam_eq_general clear (.mesh m)
    exact ⟨m', by rw [hq]; exact hst, hrest⟩

/-- Witness for C5 at a one-edge mesh whose edge is selected, smooth, and a
seam, under SharpToBevel with clear-original enabled. -/
theorem nonSharp_edges_untouched_witness :
    (∃ m', (executeConvert .SHARP_TO_BEVEL true
        (.mesh ⟨[⟨true, true, 0, true⟩], ⟨true, false, []⟩⟩)).state =
        .mesh m' ∧
       ∃ hi2 : 0 < m'.edges.length,
         m'.edges.get ⟨0, hi2⟩ =
           (([⟨true, true, 0, true⟩] : List Edge).get ⟨0, by decide⟩)) ∧
    (∃ m', (executeQuickSharpToBevel true
        (.mesh ⟨[⟨true, true, 0, true⟩], ⟨true, false, []⟩⟩)).state =
        .mesh m' ∧
       ∃ hi2 : 0 < m'.edges.length,
         m'.edges.get ⟨0, hi2⟩ =
           (([⟨true, true, 0, true⟩] : List Edge).get ⟨0, by decide⟩)) ∧
    (∃ m', (executeQuickSharpToSeam true
        (.mesh ⟨[⟨true, true, 0, true⟩], ⟨true, false, []⟩⟩)).state =
        .mesh m' ∧
       ∃ hi2 : 0 < m'.edges.length,
         m'.edges.get ⟨0, hi2⟩ =
           (([⟨true, true, 0, true⟩] : List Edge).get ⟨0, by decide⟩)) :=
  nonSharp_edges_untouched .SHARP_TO_BEVEL true
    ⟨[⟨true, true, 0, true⟩], ⟨true, false, []⟩⟩ 0 (by decide)
    (Or.inl rfl) (by decide) (by decide)

/-- C9: each quick operator produces the same post-state and, up to the
wording of the info message, the same outcome (same warning when cancelled,
same modified count when finished) as the general operator run with the
corresponding conversion type and the same clear-original flag. -/
theorem quick_ops_match_general (clear : Bool) (aobj : ActiveObject) :
    ((executeQuickSharpToBevel clear aobj).state =
        (executeConvert .SHARP_TO_BEVEL clear aobj).state ∧
      sameReport (executeQuickSharpToBevel clear aobj).outcome
        (executeConvert .SHARP_TO_BEVEL clear aobj).outcome) ∧
    ((executeQuickSharpToSeam clear aobj).state =
        (executeConvert .SHARP_TO_SEAM clear aobj).state ∧
      sameReport (executeQuickSharpToSeam clear aobj).outcome
        (executeConvert .SHARP_TO_SEAM clear aobj).outcome) ∧
    ((executeQuickSeamToSharp clear aobj).state =
        (executeConvert .SEAM_TO_SHARP clear aobj).state ∧
      sameReport (executeQuickSeamToSharp clear aobj).outcome
        (executeConvert .SEAM_TO_SHARP clear aobj).outcome) ∧
    ((executeQuickSeamToBevel clear aobj).state =
        (executeConvert .SEAM_TO_BEVEL clear aobj).state ∧
      sameReport (executeQuickSeamToBevel clear aobj).outcome
        (executeConvert .SEAM_TO_BEVEL clear aobj).outcome) :=
  ⟨⟨(quickSharpToBevel_eq_general clear aobj).1,
    (quickSharpToBevel_eq_general clear aobj).2.1⟩,
   ⟨(quickSharpToSeam_eq_general clear aobj).1,
    (quickSharpToSeam_eq_general clear aobj).2.1⟩,
   ⟨(quickSeamToSharp_eq_general clear aobj).1,
    (quickSeamToSharp_eq_general clear aobj).2.1⟩,
   ⟨(quickSeamToBevel_eq_general clear aobj).1,
    (quickSeamToBevel_eq_general clear aobj).2.1⟩⟩

theorem convertEdge_roundtrip (e : Edge) (h : isSharp e = true) :
    isSharp (convertEdge .SEAM_TO_SHARP true
      (convertEdge .SHARP_TO_SEAM true e).1).1 = true ∧
    ((convertEdge .SEAM_TO_SHARP true
      (convertEdge .SHARP_TO_SEAM true e).1).1).seam = false := by
  obtain ⟨sm, se, bw, sl⟩ := e
  cases sm
  · exact ⟨rfl, rfl⟩
  · simp [isSharp] at h

/-- C3 counterexample: on a valid mesh with one unselected edge and no
bevel-weight storage, SharpToBevel cancels with the no-edges warning but the
post-state differs from the pre-state, because the fallback float layer was
allocated before the selection check; so the conversion does not perform
zero mutations of attribute storage. -/
theorem emptySelection_allocates_storage_cex :
    (executeConvert .SHARP_TO_BEVEL true
      (.mesh ⟨[⟨false, false, 0, false⟩], ⟨false, false, []⟩⟩)).outcome =
      .cancelled warnNoEdges ∧
    (executeConvert .SHARP_TO_BEVEL true
      (.mesh ⟨[⟨false, false, 0, false⟩], ⟨false, false, []⟩⟩)).state ≠
      .mesh ⟨[⟨false, false, 0, false⟩], ⟨false, false, []⟩⟩ ∧
    (executeConvert .SHARP_TO_BEVEL true
      (.mesh ⟨[⟨false, false, 0, false⟩], ⟨false, false, []⟩⟩)).state =
      .mesh ⟨[⟨false, false, 0, false⟩],
        ⟨false, false, ["bevel_weight_edge"]⟩⟩ := by
  refine ⟨?_, ?_, ?_⟩ <;> decide

/-- C3 (amended): with an empty editable edge selection each operator
reports the no-edges warning and cancels, and no edge attribute is written
(the edge list is unchanged); however, when the rule touches the bevel
weight the bevel-weight storage has already been ensured before the
selection check, so attribute-layer state may change. -/
theorem emptySelection_cancels_edges_unchanged (ct : ConversionType)
    (clear : Bool) (m : MeshData)
    (h : (m.edges.filter fun e => e.select).isEmpty = true) :
    executeConvert ct clear (.mesh m) =
      ⟨.cancelled warnNoEdges,
       .mesh ⟨m.edges,
         if touchesBevel ct then (ensure_bevel_layer m.layers).2
         else m.layers⟩,
       (if touchesBevel ct then [Event.ensureBevelLayer] else []) ++
         [Event.captureEdges]⟩ ∧
    executeQuickSharpToBevel clear (.mesh m) =
      ⟨.cancelled warnNoEdges,
       .mesh ⟨m.edges, (ensure_bevel_layer m.layers).2⟩,
       [Event.ensureBevelLayer, Event.captureEdges]⟩ ∧
    executeQuickSharpToSeam clear (.mesh m) =
      ⟨.cancelled warnNoEdges, .mesh m, [Event.captureEdges]⟩ ∧
    executeQuickSeamToSharp clear (.mesh m) =
      ⟨.cancelled warnNoEdges, .mesh m, [Event.captureEdges]⟩ ∧
    executeQuickSeamToBevel clear (.mesh m) =
      ⟨.cancelled warnNoEdges,
       .mesh ⟨m.edges, (ensure_bevel_layer m.layers).2⟩,
       [Event.ensureBevelLayer, Event.captureEdges]⟩ := by
  refine ⟨executeConvert_mesh_of_empty ct clear m h, ?_, ?_, ?_, ?_⟩ <;>
    simp [executeQuickSharpToBevel, executeQuickSharpToSeam,
      executeQuickSeamToSharp, executeQuickSeamToBevel, h]

/-- Witness for the amended C3 at a one-edge mesh with nothing selected. -/
theorem emptySelection_cancels_edges_unchanged_witness :
    executeConvert .SHARP_TO_SEAM true
      (.mesh ⟨[⟨false, false, 0, false⟩], ⟨true, false, []⟩⟩) =
      ⟨.cancelled warnNoEdges,
       .mesh ⟨[⟨false, false, 0, false⟩],
         if touchesBevel .SHARP_TO_SEAM then
           (ensure_bevel_layer ⟨true, false, []⟩).2
         else ⟨true, false, []⟩⟩,
       (if touchesBevel .SHARP_TO_SEAM then [Event.ensureBevelLayer]
         else []) ++ [Event.captureEdges]⟩ ∧
    executeQuickSharpToBevel true
      (.mesh ⟨[⟨false, false, 0, false⟩], ⟨true, false, []⟩⟩) =
      ⟨.cancelled warnNoEdges,
       .mesh ⟨[⟨false, false, 0, false⟩],
         (ensure_bevel_layer ⟨true, false, []⟩).2⟩,
       [Event.ensureBevelLayer, Event.captureEdges]⟩ ∧
    executeQuickSharpToSeam true
      (.mesh ⟨[⟨false, false, 0, false⟩], ⟨true, false, []⟩⟩) =
      ⟨.cancelled warnNoEdges,
       .mesh ⟨[⟨false, false, 0, false⟩], ⟨true, false, []⟩⟩,
       [Event.captureEdges]⟩ ∧
    executeQuickSeamToSharp true
      (.mesh ⟨[⟨false, false, 0, false⟩], ⟨true, false, []⟩⟩) =
      ⟨.cancelled warnNoEdges,
       .mesh ⟨[⟨false, false, 0, false⟩], ⟨true, false, []⟩⟩,
       [Event.captureEdges]⟩ ∧
    executeQuickSeamToBevel true
      (.mesh ⟨[⟨false, false, 0, false⟩], ⟨true, false, []⟩⟩) =
      ⟨.cancelled warnNoEdges,
       .mesh ⟨[⟨false, false, 0, false⟩],
         (ensure_bevel_layer ⟨true, false, []⟩).2⟩,
       [Event.ensureBevelLayer, Event.captureEdges]⟩ :=
  emptySelection_cancels_edges_unchanged .SHARP_TO_SEAM true
    ⟨[⟨false, false, 0, false⟩], ⟨true, false, []⟩⟩ (by decide)

/-- C6: an edge that is selected and sharp, after SharpToSeam with
clear-original and then SeamToSharp with clear-original, is again sharp and
carries no seam. -/
theorem sharpSeam_roundTrip_restores (m : MeshData) (i : Nat)
    (hi : i < m.edges.length) (hsel : (m.edges.get ⟨i, hi⟩).select = true)
    (hsharp : isSharp (m.edges.get ⟨i, hi⟩) = true) :
    ∃ m1, (executeConvert .SHARP_TO_SEAM true (.mesh m)).state = .mesh m1 ∧
      ∃ m2, (executeConvert .SEAM_TO_SHARP true (.mesh m1)).state =
          .mesh m2 ∧
        ∃ hi2 : i < m2.edges.length,
          isSharp (m2.edges.get ⟨i, hi2⟩) = true ∧
          (m2.edges.get ⟨i, hi2⟩).seam = false := by
  obtain ⟨m1, hst1, hi1, he1⟩ :=
    executeConvert_state_getElem .SHARP_TO_SEAM true m i hi hsel
  have hsel1 : (m1.edges.get ⟨i, hi1⟩).select = true := by
    rw [he1, convertEdge_select]; exact hsel
  obtain ⟨m2, hst2, hi2, he2⟩ :=
    executeConvert_state_getElem .SEAM_TO_SHARP true m1 i hi1 hsel1
  refine ⟨m1, hst1, m2, hst2, hi2, ?_, ?_⟩
  · rw [he2, he1]; exact (convertEdge_roundtrip _ hsharp).1
  · rw [he2, he1]; exact (convertEdge_roundtrip _ hsharp).2

/-- Witness for C6 at a one-edge mesh whose edge is selected and sharp. -/
theorem sharpSeam_roundTrip_restores_witness :
    ∃ m1, (executeConvert .SHARP_TO_SEAM true
        (.mesh ⟨[⟨false, false, 0, true⟩], ⟨true, false, []⟩⟩)).state =
        .mesh m1 ∧
      ∃ m2, (executeConvert .SEAM_TO_SHARP true (.mesh m1)).state =
          .mesh m2 ∧
        ∃ hi2 : 0 < m2.edges.length,
          isSharp (m2.edges.get ⟨0, hi2⟩) = true ∧
          (m2.edges.get ⟨0, hi2⟩).seam = false :=
  sharpSeam_roundTrip_restores
    ⟨[⟨false, false, 0, true⟩], ⟨true, false, []⟩⟩ 0 (by decide)
    (by decide) (by decide)

/-- C7: for every rule touching the bevel weight and every mesh target, the
trace of the general operator and of both quick bevel operators begins with
ensuring the bevel-weight storage and only then capturing the selected
edges; in particular no capture event precedes the ensure event. -/
theorem bevel_ensured_before_capture (ct : ConversionType) (clear : Bool)
    (m : MeshData) (hct : touchesBevel ct = true) :
    (∃ rest, (executeConvert ct clear (.mesh m)).trace =
      Event.ensureBevelLayer :: Event.captureEdges :: rest) ∧
    (∃ rest, (executeQuickSharpToBevel clear (.mesh m)).trace =
      Event.ensureBevelLayer :: Event.captureEdges :: rest) ∧
    (∃ rest, (executeQuickSeamToBevel clear (.mesh m)).trace =
      Event.ensureBevelLayer :: Event.captureEdges :: rest) ∧
    capturesAfterEnsure false (executeConvert ct clear (.mesh m)).trace =
      true := by
  by_cases h : (m.edges.filter fun e => e.select).isEmpty = true
  · rw [executeConvert_mesh_of_empty ct clear m h]
    refine ⟨⟨[], by simp [hct]⟩, ⟨[], ?_⟩, ⟨[], ?_⟩, by simp [hct, capturesAfterEnsure]⟩ <;>
      simp [executeQuickSharpToBevel, executeQuickSeamToBevel, h]
  · have h2 : (m.edges.filter fun e => e.select).isEmpty = false := by
      simpa using h
    rw [executeConvert_mesh_of_ne ct clear m h2]
    refine ⟨⟨[Event.writePass, Event.updateMesh], by simp [hct]⟩,
      ⟨[Event.writePass, Event.updateMesh], ?_⟩,
      ⟨[Event.writePass, Event.updateMesh], ?_⟩,
      by simp [hct, capturesAfterEnsure]⟩ <;>
      simp [executeQuickSharpToBevel, executeQuickSeamToBevel, h2]

/-- Witness for C7 at a one-edge mesh. -/
theorem bevel_ensured_before_capture_witness :
    (∃ rest, (executeConvert .SEAM_TO_BEVEL true
        (.mesh ⟨[⟨false, true, 0, true⟩], ⟨false, false, []⟩⟩)).trace =
      Event.ensureBevelLayer :: Event.captureEdges :: rest) ∧
    (∃ rest, (executeQuickSharpToBevel true
        (.mesh ⟨[⟨false, true, 0, true⟩], ⟨false, false, []⟩⟩)).trace =
      Event.ensureBevelLayer :: Event.captureEdges :: rest) ∧
    (∃ rest, (executeQuickSeamToBevel true
        (.mesh ⟨[⟨false, true, 0, true⟩], ⟨false, false, []⟩⟩)).trace =
      Event.ensureBevelLayer :: Event.captureEdges :: rest) ∧
    capturesAfterEnsure false (executeConvert .SEAM_TO_BEVEL true
        (.mesh ⟨[⟨false, true, 0, true⟩], ⟨false, false, []⟩⟩)).trace =
      true :=
  bevel_ensured_before_capture .SEAM_TO_BEVEL true
    ⟨[⟨false, true, 0, true⟩], ⟨false, false, []⟩⟩ (by decide)

theorem ensure_bevel_layer_fallback (ls : EdgeLayers)
    (hapi : ls.bevelAPIAvailable = false) :
    (ensure_bevel_layer ls).1 = .namedFloat "bevel_weight_edge" ∧
    "bevel_weight_edge" ∈ (ensure_bevel_layer ls).2.floatLayers := by
  by_cases hmem : "bevel_weight_edge" ∈ ls.floatLayers <;>
    simp [ensure_bevel_layer, bevelWeightVerify, hapi, hmem]

/-- C8: when the dedicated bevel-weight accessor is unavailable,
ensure_bevel_layer recovers locally: it returns the generic
"bevel_weight_edge" float-layer handle and guarantees that layer exists
afterwards; and a bevel-touching conversion on such a mesh with a nonempty
selection still finishes rather than surfacing an error or cancelling, its
post-state holding the fallback float layer. -/
theorem bevel_fallback_recovers (ls : EdgeLayers)
    (hapi : ls.bevelAPIAvailable = false) (ct : ConversionType)
    (clear : Bool) (m : MeshData) (hct : touchesBevel ct = true)
    (hm : m.layers.bevelAPIAvailable = false)
    (hne : (m.edges.filter fun e => e.select).isEmpty = false) :
    (ensure_bevel_layer ls).1 = .namedFloat "bevel_weight_edge" ∧
    "bevel_weight_edge" ∈ (ensure_bevel_layer ls).2.floatLayers ∧
    ∃ msg n m', (executeConvert ct clear (.mesh m)).outcome =
        .finished msg n ∧
      (executeConvert ct clear (.mesh m)).state = .mesh m' ∧
      "bevel_weight_edge" ∈ m'.layers.floatLayers := by
  refine ⟨(ensure_bevel_layer_fallback ls hapi).1,
    (ensure_bevel_layer_fallback ls hapi).2, ?_⟩
  rw [executeConvert_mesh_of_ne ct clear m hne]
  refine ⟨_, _, _, rfl, rfl, ?_⟩
  simp only [hct, if_true]
  exact (ensure_bevel_layer_fallback m.layers hm).2

/-- Witness for C8 with an empty layer table and a one-edge mesh. -/
theorem bevel_fallback_recovers_witness :
    (ensure_bevel_layer ⟨false, false, []⟩).1 =
      .namedFloat "bevel_weight_edge" ∧
    "bevel_weight_edge" ∈
      (ensure_bevel_layer ⟨false, false, []⟩).2.floatLayers ∧
    ∃ msg n m', (executeConvert .SHARP_TO_BEVEL true
        (.mesh ⟨[⟨false, false, 0, true⟩], ⟨false, false, []⟩⟩)).outcome =
        .finished msg n ∧
      (executeConvert .SHARP_TO_BEVEL true
        (.mesh ⟨[⟨false, false, 0, true⟩], ⟨false, false, []⟩⟩)).state =
        .mesh m' ∧
      "bevel_weight_edge" ∈ m'.layers.floatLayers :=
  bevel_fallback_recovers ⟨false, false, []⟩ (by decide) .SHARP_TO_BEVEL
    true ⟨[⟨false, false, 0, true⟩], ⟨false, false, []⟩⟩ (by decide)
    (by decide) (by decide)

theorem passEdges_idem (ct : ConversionType) (edges : List Edge) :
    passEdges ct true (passEdges ct true edges) = passEdges ct true edges := by
  unfold passEdges
  rw [List.map_map]
  apply List.map_congr_left
  intro e he
  by_cases h : e.select = true
  · simp only [Function.comp_apply, if_pos h]
    have hsel2 : ((convertEdge ct true e).1).select = true := by
      rw [convertEdge_select]; exact h
    rw [if_pos hsel2,
      convertEdge_of_not_pred _ _ _ (sourcePred_convertEdge_clear ct e)]
  · simp only [Function.comp_apply, if_neg h]

theorem passEdges_filter_isEmpty (ct : ConversionType) (clear : Bool)
    (edges : List Edge) :
    ((passEdges ct clear edges).filter fun e => e.select).isEmpty =
      ((edges.filter fun e => e.select)).isEmpty := by
  rw [passEdges_filter_select]
  cases edges.filter fun e => e.select <;> rfl

theorem passCount_after_clear (ct : ConversionType) (edges : List Edge) :
    passCount ct true ((passEdges ct true edges).filter fun e => e.select) =
      0 := by
  rw [passCount_eq, passEdges_filter_select, List.countP_map]
  apply List.countP_eq_zero.mpr
  intro e he
  simp [Function.comp, sourcePred_convertEdge_clear]

theorem ensure_bevel_layer_idem (ls : EdgeLayers) :
    (ensure_bevel_layer (ensure_bevel_layer ls).2).2 =
      (ensure_bevel_layer ls).2 := by
  by_cases h : ls.bevelAPIAvailable = true
  · simp [ensure_bevel_layer, bevelWeightVerify, h]
  · have h2 : ls.bevelAPIAvailable = false := by simpa using h
    by_cases hmem : "bevel_weight_edge" ∈ ls.floatLayers <;>
      simp [ensure_bevel_layer, bevelWeightVerify, h2, hmem]

/-- C10: with clear-original enabled, running any rule a second time on the
state left by the first run modifies zero edges (the second run finishes
with count 0) and leaves the state exactly as the first run left it, because
clearing the source attribute falsifies the rule's source predicate on every
edge the first run modified. -/
theorem clear_conversion_idempotent (ct : ConversionType) (m : MeshData)
    (hne : (m.edges.filter fun e => e.select).isEmpty = false) :
    ∃ m1, (executeConvert ct true (.mesh m)).state = .mesh m1 ∧
      (∃ msg, (executeConvert ct true (.mesh m1)).outcome =
        .finished msg 0) ∧
      (executeConvert ct true (.mesh m1)).state = .mesh m1 := by
  rw [executeConvert_mesh_of_ne ct true m hne]
  refine ⟨⟨passEdges ct true m.edges,
    if touchesBevel ct then (ensure_bevel_layer m.layers).2
    else m.layers⟩, rfl, ?_, ?_⟩
  all_goals
    have hne1 : ((passEdges ct true m.edges).filter fun e =>
        e.select).isEmpty = false := by
      rw [passEdges_filter_isEmpty]; exact hne
  all_goals rw [executeConvert_mesh_of_ne ct true _ hne1]
  · exact ⟨_, by rw [passCount_after_clear]⟩
  · by_cases hb : touchesBevel ct = true <;>
      simp [hb, passEdges_idem, ensure_bevel_layer_idem]

/-- Witness for C10 at a one-edge mesh whose edge is selected and sharp,
under SharpToSeam. -/
theorem clear_conversion_idempotent_witness :
    ∃ m1, (executeConvert .SHARP_TO_SEAM true
        (.mesh ⟨[⟨false, false, 0, true⟩], ⟨true, false, []⟩⟩)).state =
        .mesh m1 ∧
      (∃ msg, (executeConvert .SHARP_TO_SEAM true (.mesh m1)).outcome =
        .finished msg 0) ∧
      (executeConvert .SHARP_TO_SEAM true (.mesh m1)).state = .mesh m1 :=
  clear_conversion_idempotent .SHARP_TO_SEAM
    ⟨[⟨false, false, 0, true⟩], ⟨true, false, []⟩⟩ (by decide)
